import Mathlib

/-!
Verification of the chatify client-side end-to-end encryption subsystem.

The development is a shallow embedding of the JavaScript sources:
* `frontend/src/lib/crypto.js` (hybrid cipher: RSA-OAEP key wrapping plus
  AES-256-GCM payload encryption, `needsDecryption` classifier),
* `keyManager.js` (device-bound key store, key lifecycle, password backups),
* `frontend/src/store/useChatStore.js` (batch message decryption).

Cryptographic primitives are modelled symbolically, in the standard ideal
(Dolev-Yao style) fashion: an AES-GCM ciphertext is a term recording the key,
the IV and the plaintext, and authenticated decryption succeeds exactly when
the same key and IV are supplied; RSA-OAEP wrapping records the recipient key
identifier, and unwrapping with a different private key fails, which is the
idealisation of the overwhelming-probability failure of OAEP decryption under
a wrong key.  Randomness (fresh keys, IVs, salts) is passed in explicitly as
arguments, mirroring the calls to `crypto.getRandomValues` / `generateKey`.
Base64 and `Array.from` serialisation of binary fields are modelled by a tag
recording which of the two JavaScript helpers produced the value, since that
choice determines the JSON wire type (string versus array of numbers).
-/

namespace Chatify

/-- The pinned algorithm identifier from `crypto.js`. -/
def pinnedAlg : String := "AES-GCM+RSA-OAEP"

/-- The fixed fallback text `decryptMessagePayload` returns on any failure
(`crypto.js` line 707). -/
def fallbackText : String := "[🔒 Can\x27t decrypt this message]"

/-- Symbolic AES-256-GCM keys.  `generated n` is a fresh key produced by
`crypto.subtle.generateKey` (`n` identifies the invocation); `pbkdf2 pw salt it`
is the key derived by PBKDF2-SHA256 from password `pw`, salt `salt` and
iteration count `it`.  Constructor injectivity models an ideal KDF. -/
inductive AesKey
  | generated : Nat → AesKey
  | pbkdf2 : String → List Nat → Nat → AesKey
  deriving DecidableEq, Repr

/-- Symbolic byte-level plaintexts that get encrypted in the subsystem:
the UTF-8 encoding of a message string (`TextEncoder.encode`), or the JSON
serialisation of an exported RSA private key JWK (identified by its key id). -/
inductive PlainData
  | utf8 : String → PlainData
  | jwkPriv : Nat → PlainData
  deriving DecidableEq, Repr

/-- `TextDecoder.decode` of a decrypted buffer. -/
def PlainData.asText : PlainData → String
  | .utf8 s => s
  | .jwkPriv k => "private-key-jwk-" ++ toString k

/-- A symbolic AES-GCM ciphertext: records the key, the IV and the plaintext.
The authentication tag is implicit: decryption checks key and IV. -/
structure AesCt where
  key : AesKey
  iv : List Nat
  data : PlainData
  deriving DecidableEq, Repr

/-- `crypto.subtle.encrypt({name:"AES-GCM", iv}, key, data)`. -/
def aesGcmEncrypt (k : AesKey) (iv : List Nat) (d : PlainData) : AesCt :=
  { key := k, iv := iv, data := d }

/-- `crypto.subtle.decrypt({name:"AES-GCM", iv}, key, ct)`: authenticated
decryption succeeds exactly when key and IV match; otherwise the tag check
fails and the call rejects (modelled by `none`). -/
def aesGcmDecrypt (k : AesKey) (iv : List Nat) (c : AesCt) : Option PlainData :=
  if c.key = k ∧ c.iv = iv then some c.data else none

/-- A PEM-encoded RSA public key (`exportPublicKeyToPem` output).  In the
symbolic model a key pair is identified by a single key id shared by its
public and private halves, and the PEM text determines the key, so the PEM
is the wrapped id. -/
structure PubPem where
  keyId : Nat
  deriving DecidableEq, Repr

/-- `exportPublicKeyToPem` from `crypto.js`. -/
def exportPublicKeyToPem (keyId : Nat) : PubPem := { keyId := keyId }

/-- `importPublicKeyFromPem` from `crypto.js`: recovers the key. -/
def importPublicKeyFromPem (pem : PubPem) : Nat := pem.keyId

/-- A symbolic RSA-OAEP-wrapped AES key: records the recipient public key id
and the wrapped key. -/
structure WrappedKey where
  recipientKeyId : Nat
  aesKey : AesKey
  deriving DecidableEq, Repr

/-- `crypto.subtle.wrapKey("raw", aesKey, recipientPublicKey, RSA-OAEP)`. -/
def rsaOaepWrap (pubKeyId : Nat) (k : AesKey) : WrappedKey :=
  { recipientKeyId := pubKeyId, aesKey := k }

/-- `crypto.subtle.unwrapKey(...)`: succeeds exactly when the private key
matches the public key the AES key was wrapped for; a mismatched key makes
OAEP decryption reject. -/
def rsaOaepUnwrap (privKeyId : Nat) (w : WrappedKey) : Option AesKey :=
  if w.recipientKeyId = privKeyId then some w.aesKey else none

/-- How a binary value was serialised for JSON transport: `b64Str v` is
`arrayBufferToBase64(v)` (a JSON string, used by `crypto.js`), `numArr v` is
`Array.from(new Uint8Array(v))` (a JSON array of byte numbers, used by
`keyManager.js` backups).  The payload `v` is kept symbolic; the tag records
the JSON wire type of the field. -/
inductive SerBin (α : Type)
  | b64Str : α → SerBin α
  | numArr : α → SerBin α
  deriving DecidableEq, Repr

/-- The underlying binary value. -/
def SerBin.val {α : Type} : SerBin α → α
  | .b64Str v => v
  | .numArr v => v

/-- Whether the field is serialised as a base64 string. -/
def SerBin.isB64 {α : Type} : SerBin α → Bool
  | .b64Str _ => true
  | .numArr _ => false

/-- The `MessagePayload` object built by `encryptMessageForRecipient`. -/
structure MessagePayload where
  version : Nat
  alg : String
  iv : SerBin (List Nat)
  wrappedKey : SerBin WrappedKey
  ciphertext : SerBin AesCt
  deriving DecidableEq, Repr

/-- A received payload object as `decryptMessagePayload` sees it: every field
may be absent (`undefined` in JavaScript), which the code guards against. -/
structure RawPayload where
  version : Option Nat
  alg : Option String
  iv : Option (SerBin (List Nat))
  wrappedKey : Option (SerBin WrappedKey)
  ciphertext : Option (SerBin AesCt)
  deriving DecidableEq, Repr

/-- View a well-formed payload as a received payload object. -/
def MessagePayload.toRaw (m : MessagePayload) : RawPayload :=
  { version := some m.version, alg := some m.alg, iv := some m.iv,
    wrappedKey := some m.wrappedKey, ciphertext := some m.ciphertext }

/-- `encryptMessageForRecipient(plaintext, recipientPublicKeyPem)` from
`crypto.js`: import the recipient key from PEM, AES-GCM-encrypt the UTF-8
plaintext under a fresh AES key and fresh 12-byte IV (both passed explicitly
as the randomness of the call), RSA-OAEP-wrap the AES key for the recipient,
and return the versioned payload with base64-serialised binary fields. -/
def encryptMessageForRecipient (plaintext : String) (recipientPublicKeyPem : PubPem)
    (freshAesKey : AesKey) (freshIv : List Nat) : MessagePayload :=
  let recipientKeyId := importPublicKeyFromPem recipientPublicKeyPem
  { version := 1
    alg := pinnedAlg
    iv := .b64Str freshIv
    wrappedKey := .b64Str (rsaOaepWrap recipientKeyId freshAesKey)
    ciphertext := .b64Str (aesGcmEncrypt freshAesKey freshIv (.utf8 plaintext)) }

/-- The errors `decryptMessagePayload` can raise internally before its
`catch` converts them to the fallback text.  The first three are the
format-validation throws raised before any cryptographic operation; `badBase64`
is an `atob` failure; the last two arise inside unwrap and AES-GCM decrypt. -/
inductive DecError
  | formatUnsupportedAlg
  | formatMissingFields
  | badBase64
  | unwrapFailed
  | gcmAuthFailed
  deriving DecidableEq, Repr

/-- Format-validation errors, as opposed to cryptographic decryption errors. -/
def DecError.isFormat : DecError → Bool
  | .formatUnsupportedAlg => true
  | .formatMissingFields => true
  | _ => false

/-- `base64ToArrayBuffer` applied to a received field: succeeds on a base64
string; applied to a non-string (such as a number array coerced to a string)
`atob` throws `InvalidCharacterError`. -/
def b64Decode {α : Type} : SerBin α → Except DecError α
  | .b64Str v => .ok v
  | .numArr _ => .error .badBase64

/-- The body of `decryptMessagePayload(messagePayload, recipientPrivateKey)`
up to its `catch`: validate that `alg` matches the pinned identifier (an
absent `alg` also fails this strict comparison), then that `iv`, `wrappedKey`
and `ciphertext` are present, then base64-decode, unwrap the AES key with the
private key, AES-GCM-decrypt, and UTF-8-decode.  The checks happen in the
source order, so a format failure is raised before any unwrap or decrypt. -/
def decryptMessagePayloadE (p : RawPayload) (privKeyId : Nat) : Except DecError String :=
  if p.alg ≠ some pinnedAlg then .error .formatUnsupportedAlg
  else
    match p.iv, p.wrappedKey, p.ciphertext with
    | some ivF, some wkF, some ctF =>
      match b64Decode ivF, b64Decode wkF, b64Decode ctF with
      | .ok iv, .ok wk, .ok ct =>
        match rsaOaepUnwrap privKeyId wk with
        | none => .error .unwrapFailed
        | some aesKey =>
          match aesGcmDecrypt aesKey iv ct with
          | none => .error .gcmAuthFailed
          | some d => .ok d.asText
      | _, _, _ => .error .badBase64
    | _, _, _ => .error .formatMissingFields

/-- `decryptMessagePayload` as callers see it: the whole body is wrapped in
`try`/`catch`, and any failure is converted into the fixed fallback text, so
the function never throws in batch paths. -/
def decryptMessagePayload (p : RawPayload) (privKeyId : Nat) : String :=
  match decryptMessagePayloadE p privKeyId with
  | .ok s => s
  | .error _ => fallbackText

/-- C1: for every plaintext `P` and every freshly generated RSA-OAEP key pair
(identified by `keyId`, with any fresh message AES key and IV), decrypting the
payload produced by encrypting `P` for the pair's PEM-encoded public key with
the pair's private key yields exactly `P`. -/
theorem roundtrip_encrypt_decrypt (P : String) (keyId : Nat) (aes : AesKey) (iv : List Nat) :
    decryptMessagePayload
      ((encryptMessageForRecipient P (exportPublicKeyToPem keyId) aes iv).toRaw) keyId = P := by
  simp [decryptMessagePayload, decryptMessagePayloadE, encryptMessageForRecipient,
    MessagePayload.toRaw, exportPublicKeyToPem, importPublicKeyFromPem,
    b64Decode, rsaOaepWrap, rsaOaepUnwrap, aesGcmEncrypt, aesGcmDecrypt, PlainData.asText]

/-- C3: decrypting a payload that was encrypted for key pair `b` with the
private key of a different pair `a` always fails: internally the RSA-OAEP
unwrap rejects, and the function resolves to the fixed fallback text, never to
any other plaintext. -/
theorem cross_key_rejection (P : String) (aId bId : Nat) (h : aId ≠ bId)
    (aes : AesKey) (iv : List Nat) :
    decryptMessagePayloadE
        ((encryptMessageForRecipient P (exportPublicKeyToPem bId) aes iv).toRaw) aId
      = .error .unwrapFailed
    ∧ decryptMessagePayload
        ((encryptMessageForRecipient P (exportPublicKeyToPem bId) aes iv).toRaw) aId
      = fallbackText := by
  have hne : bId ≠ aId := fun e => h e.symm
  constructor
  · simp [decryptMessagePayloadE, encryptMessageForRecipient, MessagePayload.toRaw,
      exportPublicKeyToPem, importPublicKeyFromPem, b64Decode, rsaOaepWrap,
      rsaOaepUnwrap, hne]
  · simp [decryptMessagePayload, decryptMessagePayloadE, encryptMessageForRecipient,
      MessagePayload.toRaw, exportPublicKeyToPem, importPublicKeyFromPem, b64Decode,
      rsaOaepWrap, rsaOaepUnwrap, hne]

/-- Witness for C3 at a concrete pair of distinct key pairs. -/
theorem cross_key_rejection_witness :
    (1 : Nat) ≠ (2 : Nat)
    ∧ decryptMessagePayload
        ((encryptMessageForRecipient "hi" (exportPublicKeyToPem 2)
          (.generated 0) [1, 2, 3]).toRaw) 1 = fallbackText :=
  ⟨by decide,
   (cross_key_rejection "hi" 1 2 (by decide) (.generated 0) [1, 2, 3]).2⟩

/-- C8: whenever a received payload has an `alg` differing from the pinned
identifier (including an absent `alg`) or is missing any of `iv`,
`wrappedKey`, `ciphertext`, the internal run of `decryptMessagePayload` stops
with a format-validation error — a kind distinct from the errors the unwrap
and decrypt stages produce, which are therefore never reached — and the
caller-visible result is the fallback text. -/
theorem format_validation_rejects (p : RawPayload) (k : Nat)
    (h : p.alg ≠ some pinnedAlg ∨ p.iv = none ∨ p.wrappedKey = none ∨ p.ciphertext = none) :
    ∃ e, decryptMessagePayloadE p k = .error e ∧ e.isFormat = true
      ∧ decryptMessagePayload p k = fallbackText := by
  by_cases halg : p.alg = some pinnedAlg
  · have hmiss : p.iv = none ∨ p.wrappedKey = none ∨ p.ciphertext = none := by
      rcases h with h | h | h | h
      · exact absurd halg h
      · exact Or.inl h
      · exact Or.inr (Or.inl h)
      · exact Or.inr (Or.inr h)
    refine ⟨.formatMissingFields, ?_, rfl, ?_⟩ <;>
    · rcases hmiss with h1 | h1 | h1 <;>
      · cases hiv : p.iv <;> cases hwk : p.wrappedKey <;> cases hct : p.ciphertext <;>
          simp_all [decryptMessagePayload, decryptMessagePayloadE]
  · refine ⟨.formatUnsupportedAlg, ?_, rfl, ?_⟩ <;>
      simp [decryptMessagePayload, decryptMessagePayloadE, halg]

/-- A concrete received payload whose `iv` field is absent. -/
def payloadMissingIv : RawPayload :=
  { version := some 1
    alg := some pinnedAlg
    iv := none
    wrappedKey := some (.b64Str (rsaOaepWrap 1 (.generated 0)))
    ciphertext := some (.b64Str (aesGcmEncrypt (.generated 0) [1] (.utf8 "x"))) }

/-- Witness for C8 at a concrete payload missing its `iv`. -/
theorem format_validation_rejects_witness :
    (payloadMissingIv.alg ≠ some pinnedAlg ∨ payloadMissingIv.iv = none
      ∨ payloadMissingIv.wrappedKey = none ∨ payloadMissingIv.ciphertext = none)
    ∧ ∃ e, decryptMessagePayloadE payloadMissingIv 5 = .error e ∧ e.isFormat = true
      ∧ decryptMessagePayload payloadMissingIv 5 = fallbackText :=
  ⟨Or.inr (Or.inl rfl),
   format_validation_rejects payloadMissingIv 5 (Or.inr (Or.inl rfl))⟩

/-! ## Key manager (`keyManager.js`): device key store and key lifecycle -/

/-- A `StoredKeyRecord` as persisted by `keyManager.js` in the
`encryption-keys` store: the private-key JWK encrypted under the device key,
the IV used (stored via `Array.from`), the PEM public key, the user id and
timestamps. -/
structure StoredRecord where
  encryptedPrivateKey : AesCt
  iv : List Nat
  publicKeyPem : PubPem
  userId : String
  createdAt : Nat
  importedAt : Option Nat
  deriving DecidableEq, Repr

/-- The IndexedDB state `keyManager.js` works against: the singleton
`device-key` slot of the `device-keys` store (the exported JWK round-trips
to the same key, so the slot holds the key itself), and the per-user
`encryption-keys` records. -/
structure Store where
  deviceKeySlot : Option AesKey
  records : List (String × StoredRecord)
  deriving DecidableEq, Repr

/-- `db.get(STORE_NAME, userId)`. -/
def lookupRecord (st : Store) (uid : String) : Option StoredRecord :=
  (st.records.find? (fun p => p.1 == uid)).map (fun p => p.2)

/-- `db.put(STORE_NAME, record, userId)`: replaces any previous record for
the user (the newest entry shadows older ones). -/
def putRecord (st : Store) (uid : String) (kd : StoredRecord) : Store :=
  { st with records := (uid, kd) :: st.records }

/-- The first half of `getDeviceKey`, up to the `await` boundary after the
IndexedDB read of the `device-key` slot. -/
def getDeviceKeyRead (st : Store) : Option AesKey :=
  st.deviceKeySlot

/-- The second half of `getDeviceKey`, resumed after the read: if a key was
found, import and return it; otherwise generate a fresh AES-256-GCM key
(passed in as `fresh`), export and persist it, and return it.  The two
halves are separate because the JavaScript event loop can run other tasks
between them — there is no initialization guard in the source. -/
def getDeviceKeyFinish (st : Store) (readResult : Option AesKey) (fresh : AesKey) :
    AesKey × Store :=
  match readResult with
  | some k => (k, st)
  | none => (fresh, { st with deviceKeySlot := some fresh })

/-- `getDeviceKey` run without interleaving (both halves back to back). -/
def getDeviceKey (st : Store) (fresh : AesKey) : AesKey × Store :=
  getDeviceKeyFinish st (getDeviceKeyRead st) fresh

/-- `encryptWithDeviceKey(data, deviceKey)` with its fresh random IV passed
explicitly: serialise and AES-GCM-encrypt. -/
def encryptWithDeviceKey (data : PlainData) (deviceKey : AesKey) (freshIv : List Nat) :
    AesCt × List Nat :=
  (aesGcmEncrypt deviceKey freshIv data, freshIv)

/-- `decryptWithDeviceKey(encrypted, iv, deviceKey)`: AES-GCM-decrypt and
deserialise; an authentication failure rejects (`none`). -/
def decryptWithDeviceKey (encrypted : AesCt) (iv : List Nat) (deviceKey : AesKey) :
    Option PlainData :=
  aesGcmDecrypt deviceKey iv encrypted

/-- The key triple `initializeKeys` and `restoreKeys` hand back:
`{publicKey, privateKey, publicKeyPem}`.  The two key handles are identified
by their key ids. -/
structure KeyTriple where
  publicKey : Nat
  privateKey : Nat
  publicKeyPem : PubPem
  deriving DecidableEq, Repr

/-- `initializeKeys(userId)`: generate a fresh RSA pair (id passed in),
export the public PEM and the private JWK, obtain the device key (creating
one if absent), encrypt the JWK under it with a fresh IV, persist the
record, and return the live key triple. -/
def initializeKeys (st : Store) (uid : String) (freshKeyId : Nat)
    (freshDk : AesKey) (freshIv : List Nat) (now : Nat) : KeyTriple × Store :=
  let publicKeyPem := exportPublicKeyToPem freshKeyId
  let dkSt := getDeviceKey st freshDk
  let encIv := encryptWithDeviceKey (.jwkPriv freshKeyId) dkSt.1 freshIv
  let kd : StoredRecord :=
    { encryptedPrivateKey := encIv.1, iv := encIv.2, publicKeyPem := publicKeyPem,
      userId := uid, createdAt := now, importedAt := none }
  ({ publicKey := freshKeyId, privateKey := freshKeyId, publicKeyPem := publicKeyPem },
   putRecord dkSt.2 uid kd)

/-- `crypto.subtle.importKey("jwk", ...)` of a decrypted buffer: succeeds
exactly when the decrypted data parses as a private-key JWK. -/
def importPrivateKeyFromJwk : PlainData → Option Nat
  | .jwkPriv k => some k
  | .utf8 _ => none

/-- `restoreKeys(userId)`: read the stored record (absent record gives
`null`); obtain the device key; decrypt the record and reimport both keys.
The whole body sits inside `try`/`catch`, so a decryption or import failure
is converted into `null` — the function is total and never throws. -/
def restoreKeys (st : Store) (uid : String) (freshDk : AesKey) :
    Option KeyTriple × Store :=
  match lookupRecord st uid with
  | none => (none, st)
  | some kd =>
    let dkSt := getDeviceKey st freshDk
    match decryptWithDeviceKey kd.encryptedPrivateKey kd.iv dkSt.1 with
    | none => (none, dkSt.2)
    | some d =>
      match importPrivateKeyFromJwk d with
      | none => (none, dkSt.2)
      | some privId =>
        (some { publicKey := importPublicKeyFromPem kd.publicKeyPem,
                privateKey := privId, publicKeyPem := kd.publicKeyPem },
         dkSt.2)

/-- The `BackupRecord` built by `exportKeyBackup`.  The binary fields carry
the serialisation tag actually chosen by the source (`Array.from`, i.e.
`numArr`). -/
structure BackupRecord where
  version : Nat
  userId : String
  publicKeyPem : PubPem
  encryptedPrivateKey : SerBin AesCt
  salt : SerBin (List Nat)
  iv : SerBin (List Nat)
  createdAt : Nat
  deriving DecidableEq, Repr

/-- The failures `exportKeyBackup` can propagate (it has no `catch`): no
record to export, or the stored record does not decrypt under the current
device key. -/
inductive ExportError
  | noKeysFound
  | storageDecryptFailed
  deriving DecidableEq, Repr

/-- `exportKeyBackup(userId, backupPassword)`: read the stored record,
decrypt it with the device key, derive a fresh AES-256 key from the password
by PBKDF2-SHA256 with 100000 iterations and the fresh 16-byte `salt`,
encrypt the private-key JWK under it with the fresh 12-byte `backupIv`, and
return the versioned record whose binary fields are serialised with
`Array.from`. -/
def exportKeyBackup (st : Store) (uid backupPassword : String)
    (freshDk : AesKey) (salt backupIv : List Nat) (now : Nat) :
    Except ExportError (BackupRecord × Store) :=
  match lookupRecord st uid with
  | none => .error .noKeysFound
  | some kd =>
    let dkSt := getDeviceKey st freshDk
    match decryptWithDeviceKey kd.encryptedPrivateKey kd.iv dkSt.1 with
    | none => .error .storageDecryptFailed
    | some privateKeyJwk =>
      let backupKey := AesKey.pbkdf2 backupPassword salt 100000
      let encryptedBackup := aesGcmEncrypt backupKey backupIv privateKeyJwk
      .ok ({ version := 1, userId := uid, publicKeyPem := kd.publicKeyPem,
             encryptedPrivateKey := .numArr encryptedBackup,
             salt := .numArr salt, iv := .numArr backupIv, createdAt := now },
           dkSt.2)

/-- `importKeyBackup(backupJson, backupPassword, userId)`: the whole body is
wrapped in `try`/`catch`, returning `false` with the store untouched on any
failure.  It rejects an unsupported `version`, re-derives the key from the
password and the stored salt with identical PBKDF2 parameters, decrypts the
backup (a wrong password makes the AES-GCM tag check reject), then
re-encrypts the recovered JWK under the local device key with a fresh IV and
persists the record under the caller-supplied user id. -/
def importKeyBackup (backup : BackupRecord) (backupPassword uid : String)
    (st : Store) (freshDk : AesKey) (deviceIv : List Nat) (now : Nat) :
    Bool × Store :=
  if backup.version ≠ 1 then (false, st)
  else
    let backupKey := AesKey.pbkdf2 backupPassword backup.salt.val 100000
    match aesGcmDecrypt backupKey backup.iv.val backup.encryptedPrivateKey.val with
    | none => (false, st)
    | some privateKeyJwk =>
      let dkSt := getDeviceKey st freshDk
      let encIv := encryptWithDeviceKey privateKeyJwk dkSt.1 deviceIv
      let kd : StoredRecord :=
        { encryptedPrivateKey := encIv.1, iv := encIv.2,
          publicKeyPem := backup.publicKeyPem, userId := uid,
          createdAt := now, importedAt := some now }
      (true, putRecord dkSt.2 uid kd)

/-! ## Concrete scenario shared by several witnesses -/

/-- A concrete device key. -/
def demoDeviceKey : AesKey := .generated 7

/-- A concrete stored record for user `alice` holding the private key of the
pair with id 5, encrypted under the demo device key. -/
def demoRecord : StoredRecord :=
  { encryptedPrivateKey := aesGcmEncrypt demoDeviceKey [10, 11] (.jwkPriv 5)
    iv := [10, 11]
    publicKeyPem := exportPublicKeyToPem 5
    userId := "alice"
    createdAt := 0
    importedAt := none }

/-- A concrete store: the demo device key is persisted and `alice` has a
stored record. -/
def demoStore : Store :=
  { deviceKeySlot := some demoDeviceKey, records := [("alice", demoRecord)] }

/-- The backup `exportKeyBackup` produces from `demoStore` for `alice` with
password `CorrectHorse1`, salt `[2]` and backup IV `[3]` at time 0. -/
def demoBackup : BackupRecord :=
  { version := 1
    userId := "alice"
    publicKeyPem := exportPublicKeyToPem 5
    encryptedPrivateKey :=
      .numArr (aesGcmEncrypt (.pbkdf2 "CorrectHorse1" [2] 100000) [3] (.jwkPriv 5))
    salt := .numArr [2]
    iv := .numArr [3]
    createdAt := 0 }

/-! ## C4: device-key creation is not serialized -/

/-- C4 counterexample: `getDeviceKey` has no initialization guard, so two
first-use callers whose IndexedDB reads both happen before either write can
each generate and persist a device key.  Caller A reads an empty slot,
caller B reads the still-empty slot, A generates and persists key 1, B
generates and persists key 2: the callers observe divergent keys and the
slot ends up holding B's key, contradicting the claim that two divergent
device keys can never be generated and persisted. -/
theorem device_key_race_counterexample :
    getDeviceKeyRead { deviceKeySlot := none, records := [] } = none
    ∧ (getDeviceKeyFinish { deviceKeySlot := none, records := [] }
        none (.generated 1)).1 = .generated 1
    ∧ (getDeviceKeyFinish
        (getDeviceKeyFinish { deviceKeySlot := none, records := [] }
          none (.generated 1)).2
        none (.generated 2)).1 = .generated 2
    ∧ (getDeviceKeyFinish { deviceKeySlot := none, records := [] }
        none (.generated 1)).1
      ≠ (getDeviceKeyFinish
          (getDeviceKeyFinish { deviceKeySlot := none, records := [] }
            none (.generated 1)).2
          none (.generated 2)).1
    ∧ (getDeviceKeyFinish
        (getDeviceKeyFinish { deviceKeySlot := none, records := [] }
          none (.generated 1)).2
        none (.generated 2)).2.deviceKeySlot = some (.generated 2) := by
  decide

/-- C4 amended: `getDeviceKey` is not serialized behind an initialization
guard and interleaved first-use calls can generate and persist divergent
device keys; only calls that do not overlap are safe — a `getDeviceKey` call
that starts after an earlier call has completed always returns the key that
earlier call returned (and persisted, if the slot was empty). -/
theorem device_key_sequential_agreement (st : Store) (f1 f2 : AesKey) :
    (getDeviceKey (getDeviceKey st f1).2 f2).1 = (getDeviceKey st f1).1 := by
  cases h : st.deviceKeySlot <;>
    simp [getDeviceKey, getDeviceKeyRead, getDeviceKeyFinish, h]

/-! ## C9: restoration is best-effort -/

/-- C9: `restoreKeys` is a total function (it never throws): it returns
`null` when the stored record is absent and when the record fails to decrypt
under the current device key, and whenever it returns a key triple the
record decrypted successfully, its contents reimported as a private key, and
the public key came from the stored PEM. -/
theorem restore_best_effort (st : Store) (uid : String) (fresh : AesKey) :
    (lookupRecord st uid = none → (restoreKeys st uid fresh).1 = none)
    ∧ (∀ kd, lookupRecord st uid = some kd →
        decryptWithDeviceKey kd.encryptedPrivateKey kd.iv (getDeviceKey st fresh).1 = none →
        (restoreKeys st uid fresh).1 = none)
    ∧ (∀ r, (restoreKeys st uid fresh).1 = some r →
        ∃ kd d, lookupRecord st uid = some kd
          ∧ decryptWithDeviceKey kd.encryptedPrivateKey kd.iv (getDeviceKey st fresh).1 = some d
          ∧ importPrivateKeyFromJwk d = some r.privateKey
          ∧ r.publicKeyPem = kd.publicKeyPem) := by
  refine ⟨fun h => by simp [restoreKeys, h], fun kd hkd hdec => by simp [restoreKeys, hkd, hdec], ?_⟩
  intro r hr
  unfold restoreKeys at hr
  cases hkd : lookupRecord st uid with
  | none => simp [hkd] at hr
  | some kd =>
    simp only [hkd] at hr
    cases hdec : decryptWithDeviceKey kd.encryptedPrivateKey kd.iv (getDeviceKey st fresh).1 with
    | none => simp [hdec] at hr
    | some d =>
      simp only [hdec] at hr
      cases himp : importPrivateKeyFromJwk d with
      | none => simp [himp] at hr
      | some privId =>
        simp only [himp] at hr
        obtain rfl := Option.some.inj hr
        exact ⟨kd, d, rfl, hdec, by simp [himp], rfl⟩

/-- Witness for C9: on a store with no record for `alice`, `restoreKeys`
returns `null`. -/
theorem restore_best_effort_witness :
    lookupRecord { deviceKeySlot := none, records := [] } "alice" = none
    ∧ (restoreKeys { deviceKeySlot := none, records := [] } "alice" (.generated 0)).1 = none :=
  ⟨rfl, (restore_best_effort { deviceKeySlot := none, records := [] } "alice" (.generated 0)).1 rfl⟩

/-! ## C6: a wrong backup password fails completely and atomically -/

/-- C6: importing any backup produced by `exportKeyBackup` with a password
different from the export password fails completely and atomically: the
PBKDF2-derived key differs, so the AES-GCM tag check rejects, the `catch`
reports `false`, and — since the store write only happens after a successful
decrypt — the local key store the import ran against is returned unchanged,
with no partial `StoredKeyRecord` written. -/
theorem wrong_backup_password_atomic (st stAfter importSt : Store)
    (uid uid2 pw wrongPw : String) (b : BackupRecord)
    (fresh fresh2 : AesKey) (salt backupIv deviceIv : List Nat) (t t2 : Nat)
    (hexp : exportKeyBackup st uid pw fresh salt backupIv t = .ok (b, stAfter))
    (hpw : wrongPw ≠ pw) :
    importKeyBackup b wrongPw uid2 importSt fresh2 deviceIv t2 = (false, importSt) := by
  simp only [exportKeyBackup] at hexp
  cases hkd : lookupRecord st uid with
  | none => simp [hkd] at hexp
  | some kd =>
    simp only [hkd] at hexp
    cases hdec : decryptWithDeviceKey kd.encryptedPrivateKey kd.iv
        (getDeviceKey st fresh).1 with
    | none => simp [hdec] at hexp
    | some d =>
      simp only [hdec, Except.ok.injEq, Prod.mk.injEq] at hexp
      obtain ⟨hb, _⟩ := hexp
      subst hb
      simp [importKeyBackup, SerBin.val, aesGcmDecrypt, aesGcmEncrypt,
        AesKey.pbkdf2.injEq, Ne.symm hpw]

/-- Witness for C6: the demo backup exported with password `CorrectHorse1`
fails to import with password `WrongPassword2`, leaving the store untouched. -/
theorem wrong_backup_password_atomic_witness :
    importKeyBackup demoBackup "WrongPassword2" "alice" demoStore
      (.generated 9) [20, 21] 1 = (false, demoStore) :=
  wrong_backup_password_atomic demoStore demoStore demoStore "alice" "alice"
    "CorrectHorse1" "WrongPassword2" demoBackup (.generated 9) (.generated 9)
    [2] [3] [20, 21] 0 1 rfl (by decide)

/-! ## C7: the backup wire format -/

/-- C7 counterexample: the backup `exportKeyBackup` actually produces from
the demo store serialises `encryptedPrivateKey`, `salt` and `iv` with
`Array.from(new Uint8Array(...))`, i.e. as JSON arrays of byte numbers, not
as base64-encoded strings as the claim states. -/
theorem backup_wire_format_counterexample :
    exportKeyBackup demoStore "alice" "CorrectHorse1" (.generated 9) [2] [3] 0
      = .ok (demoBackup, demoStore)
    ∧ demoBackup.encryptedPrivateKey.isB64 = false
    ∧ demoBackup.salt.isB64 = false
    ∧ demoBackup.iv.isB64 = false := by
  refine ⟨rfl, rfl, rfl, rfl⟩

/-- C7 amended: every `BackupRecord` produced by `exportKeyBackup` matches
the wire format `{version: 1, userId, publicKeyPem, encryptedPrivateKey,
salt, iv, createdAt}` — with the public key PEM taken from the stored
record — but the binary fields `encryptedPrivateKey`, `salt` and `iv` are
serialised as JSON arrays of byte numbers (`Array.from`), not as
base64-encoded strings. -/
theorem backup_wire_format (st stAfter : Store) (uid pw : String) (b : BackupRecord)
    (fresh : AesKey) (salt backupIv : List Nat) (now : Nat)
    (hexp : exportKeyBackup st uid pw fresh salt backupIv now = .ok (b, stAfter)) :
    b.version = 1 ∧ b.userId = uid
    ∧ (∃ kd, lookupRecord st uid = some kd ∧ b.publicKeyPem = kd.publicKeyPem)
    ∧ b.encryptedPrivateKey.isB64 = false
    ∧ b.salt = .numArr salt ∧ b.iv = .numArr backupIv
    ∧ b.createdAt = now := by
  simp only [exportKeyBackup] at hexp
  cases hkd : lookupRecord st uid with
  | none => simp [hkd] at hexp
  | some kd =>
    simp only [hkd] at hexp
    cases hdec : decryptWithDeviceKey kd.encryptedPrivateKey kd.iv
        (getDeviceKey st fresh).1 with
    | none => simp [hdec] at hexp
    | some d =>
      simp only [hdec, Except.ok.injEq, Prod.mk.injEq] at hexp
      obtain ⟨hb, _⟩ := hexp
      subst hb
      exact ⟨rfl, rfl, ⟨kd, rfl, rfl⟩, rfl, rfl, rfl, rfl⟩

/-- Witness for C7 (amended): the demo export satisfies the amended format. -/
theorem backup_wire_format_witness :
    demoBackup.version = 1 ∧ demoBackup.userId = "alice"
    ∧ (∃ kd, lookupRecord demoStore "alice" = some kd
        ∧ demoBackup.publicKeyPem = kd.publicKeyPem)
    ∧ demoBackup.encryptedPrivateKey.isB64 = false
    ∧ demoBackup.salt = .numArr [2] ∧ demoBackup.iv = .numArr [3]
    ∧ demoBackup.createdAt = 0 :=
  backup_wire_format demoStore demoStore "alice" "CorrectHorse1" demoBackup
    (.generated 9) [2] [3] 0 rfl

/-! ## C5: backup round-trip -/

/-- C5: for every private key (id `pkId`) stored for a user in a consistent
store — the persisted device key decrypts the stored record — and every
password, exporting a backup and importing it back with the same password
succeeds, persists a `StoredKeyRecord`, and `restoreKeys` then yields a key
pair whose private key is the original one and which still decrypts a
message encrypted against the original public key. -/
theorem backup_roundtrip (st : Store) (uid pw P : String) (dk aes : AesKey)
    (pkId : Nat) (kd : StoredRecord)
    (hdk : st.deviceKeySlot = some dk)
    (hkd : lookupRecord st uid = some kd)
    (hct : kd.encryptedPrivateKey = aesGcmEncrypt dk kd.iv (.jwkPriv pkId))
    (f1 f2 f3 : AesKey) (salt backupIv deviceIv messageIv : List Nat) (t1 t2 : Nat) :
    ∃ b stImp, exportKeyBackup st uid pw f1 salt backupIv t1 = .ok (b, st)
      ∧ importKeyBackup b pw uid st f2 deviceIv t2 = (true, stImp)
      ∧ ∃ r, (restoreKeys stImp uid f3).1 = some r ∧ r.privateKey = pkId
        ∧ decryptMessagePayload
            ((encryptMessageForRecipient P (exportPublicKeyToPem pkId) aes messageIv).toRaw)
            r.privateKey = P := by
  have hexp : exportKeyBackup st uid pw f1 salt backupIv t1
      = .ok ({ version := 1, userId := uid, publicKeyPem := kd.publicKeyPem,
               encryptedPrivateKey :=
                 .numArr (aesGcmEncrypt (.pbkdf2 pw salt 100000) backupIv (.jwkPriv pkId)),
               salt := .numArr salt, iv := .numArr backupIv, createdAt := t1 }, st) := by
    simp [exportKeyBackup, hkd, getDeviceKey, getDeviceKeyRead, getDeviceKeyFinish, hdk,
      decryptWithDeviceKey, aesGcmDecrypt, hct, aesGcmEncrypt]
  refine ⟨_, putRecord st uid
      { encryptedPrivateKey := aesGcmEncrypt dk deviceIv (.jwkPriv pkId), iv := deviceIv,
        publicKeyPem := kd.publicKeyPem, userId := uid, createdAt := t2,
        importedAt := some t2 },
    hexp, ?_, ?_⟩
  · simp [importKeyBackup, SerBin.val, aesGcmDecrypt, aesGcmEncrypt, getDeviceKey,
      getDeviceKeyRead, getDeviceKeyFinish, hdk, encryptWithDeviceKey]
  · refine ⟨{ publicKey := importPublicKeyFromPem kd.publicKeyPem, privateKey := pkId,
              publicKeyPem := kd.publicKeyPem }, ?_, rfl, ?_⟩
    · simp [restoreKeys, lookupRecord, putRecord, List.find?, getDeviceKey,
        getDeviceKeyRead, getDeviceKeyFinish, hdk, encryptWithDeviceKey,
        decryptWithDeviceKey, aesGcmDecrypt, aesGcmEncrypt, importPrivateKeyFromJwk]
    · simp [decryptMessagePayload, decryptMessagePayloadE, encryptMessageForRecipient,
        MessagePayload.toRaw, exportPublicKeyToPem, importPublicKeyFromPem,
        b64Decode, rsaOaepWrap, rsaOaepUnwrap, aesGcmEncrypt, aesGcmDecrypt,
        PlainData.asText]

/-- Witness for C5 at the demo store. -/
theorem backup_roundtrip_witness :
    ∃ b stImp,
      exportKeyBackup demoStore "alice" "CorrectHorse1" (.generated 9) [2] [3] 0
        = .ok (b, demoStore)
      ∧ importKeyBackup b "CorrectHorse1" "alice" demoStore (.generated 9) [20, 21] 1
        = (true, stImp)
      ∧ ∃ r, (restoreKeys stImp "alice" (.generated 9)).1 = some r ∧ r.privateKey = 5
        ∧ decryptMessagePayload
            ((encryptMessageForRecipient "hello alice" (exportPublicKeyToPem 5)
              (.generated 30) [31, 32]).toRaw)
            r.privateKey = "hello alice" :=
  backup_roundtrip demoStore "alice" "CorrectHorse1" "hello alice" demoDeviceKey
    (.generated 30) 5 demoRecord rfl rfl rfl (.generated 9) (.generated 9) (.generated 9)
    [2] [3] [20, 21] [31, 32] 0 1

/-! ## C2: batch decryption in `useChatStore.js` -/

/-- A message record as the chat store handles it: the transport fields the
batch path reads (`isEncrypted`, `messagePayload`), the display `text`, and
the `_decrypted` / `_decryptionFailed` marker fields the repository's
documentation and test plan specify for the batch result. -/
structure ChatMessage where
  id : String
  isEncrypted : Bool
  messagePayload : Option RawPayload
  text : String
  decrypted : Bool
  decryptionFailed : Bool
  deriving DecidableEq, Repr

/-- `decryptMessages(messages)` exactly as shipped in `useChatStore.js`
(lines 76–81): the body is `return messages;` — no decryption is attempted,
no fallback text is substituted and no decryption-failed flag is set
("SIMPLIFIED: Just return messages as-is"). -/
def decryptMessages (messages : List ChatMessage) : List ChatMessage :=
  messages

/-- The per-item batch decryption the repository documents for the chat
store (test plan and implementation summary): skip records not flagged
encrypted, decrypt the payload of encrypted records with the local private
key and replace the display text — `decryptMessagePayload` itself resolving
failures to the fixed fallback text — and mark the outcome on the message. -/
def decryptMessagesDocumented (privKeyId : Nat) (messages : List ChatMessage) :
    List ChatMessage :=
  messages.map fun m =>
    if m.isEncrypted then
      match m.messagePayload with
      | some p =>
        match decryptMessagePayloadE p privKeyId with
        | .ok plaintext => { m with text := plaintext, decrypted := true }
        | .error _ => { m with text := fallbackText, decryptionFailed := true }
      | none => m
    else m

/-- A plaintext message in a batch. -/
def plainMsg : ChatMessage :=
  { id := "m1", isEncrypted := false, messagePayload := none,
    text := "hello", decrypted := false, decryptionFailed := false }

/-- An encrypted message whose payload is wrapped for key pair 99 and hence
undecryptable with the local private key 1 (a corrupted/foreign record). -/
def corruptMsg : ChatMessage :=
  { id := "m2", isEncrypted := true,
    messagePayload := some (encryptMessageForRecipient "secret"
      (exportPublicKeyToPem 99) (.generated 40) [41]).toRaw,
    text := "AES-GCM+RSA-OAEP gibberish", decrypted := false, decryptionFailed := false }

/-- C2 (code bug evidence): on a two-message batch whose second message is
flagged encrypted but undecryptable with the local private key 1 — its
payload really does fail to decrypt — the shipped `decryptMessages` returns
the batch unchanged: the corrupted message keeps its raw text, gains no
decryption-failed flag and no fallback text, while the behaviour the
repository documents would have marked exactly that message failed with the
fallback text and left the plaintext sibling untouched. -/
theorem batch_decryption_disabled :
    decryptMessages [plainMsg, corruptMsg] = [plainMsg, corruptMsg]
    ∧ corruptMsg.decryptionFailed = false
    ∧ corruptMsg.text ≠ fallbackText
    ∧ decryptMessagePayload
        ((encryptMessageForRecipient "secret" (exportPublicKeyToPem 99)
          (.generated 40) [41]).toRaw) 1 = fallbackText
    ∧ decryptMessagesDocumented 1 [plainMsg, corruptMsg]
      = [plainMsg,
         { corruptMsg with text := fallbackText, decryptionFailed := true }] := by
  exact ⟨rfl, rfl, by decide, rfl, rfl⟩

/-! ## C10: the `needsDecryption` classifier

`needsDecryption` receives an arbitrary JavaScript value, so the embedding
introduces a JavaScript value type and an executable model of the platform
primitive `JSON.parse` (a fuelled recursive-descent routine over the JSON
grammar; `\uXXXX` escapes are not modelled and make the parse fail, which
only narrows the set of accepted strings). -/

/-- JavaScript values as `needsDecryption` can receive them. -/
inductive JsVal
  | undefinedVal
  | nul
  | bool : Bool → JsVal
  | num : Int → JsVal
  | str : String → JsVal
  | arr : List JsVal → JsVal
  | obj : List (String × JsVal) → JsVal

/-- JavaScript property access `o[k]` on an object: the first binding wins,
an absent property is `undefined`. -/
def jsGetProp (fields : List (String × JsVal)) (k : String) : JsVal :=
  match fields.find? (fun p => p.1 == k) with
  | some p => p.2
  | none => .undefinedVal

/-- `typeof v === "string"`. -/
def JsVal.isStr : JsVal → Bool
  | .str _ => true
  | _ => false

/-- JSON whitespace. -/
def isJsonWs (c : Char) : Bool :=
  c = ' ' || c = '\t' || c = '\n' || c = '\r'

/-- Drop leading JSON whitespace. -/
def skipWs : List Char → List Char
  | [] => []
  | c :: cs => if isJsonWs c then skipWs cs else c :: cs

/-- Strip an expected literal continuation (for `null`, `true`, `false`). -/
def stripLit : List Char → List Char → Option (List Char)
  | [], cs => some cs
  | _ :: _, [] => none
  | l :: ls, c :: cs => if c = l then stripLit ls cs else none

/-- JSON single-character escapes (`\uXXXX` is not modelled). -/
def unescape (e : Char) : Option Char :=
  if e = '"' then some '"'
  else if e = '\\' then some '\\'
  else if e = '/' then some '/'
  else if e = 'n' then some '\n'
  else if e = 't' then some '\t'
  else if e = 'r' then some '\r'
  else if e = 'b' then some (Char.ofNat 8)
  else if e = 'f' then some (Char.ofNat 12)
  else none

/-- Parse the body of a JSON string after the opening quote. -/
def jstrBody : List Char → Option (String × List Char)
  | [] => none
  | c :: cs =>
    if c = '"' then some ("", cs)
    else if c = '\\' then
      match cs with
      | [] => none
      | e :: cs2 =>
        match unescape e with
        | none => none
        | some d =>
          match jstrBody cs2 with
          | none => none
          | some (s, rest) => some (String.mk (d :: s.data), rest)
    else
      match jstrBody cs with
      | none => none
      | some (s, rest) => some (String.mk (c :: s.data), rest)

/-- Take a maximal run of decimal digits. -/
def takeDigits : List Char → List Char × List Char
  | [] => ([], [])
  | c :: cs =>
    if c.isDigit then
      let r := takeDigits cs
      (c :: r.1, r.2)
    else ([], c :: cs)

/-- Numeric value of a digit run. -/
def digitsToNat (ds : List Char) : Nat :=
  ds.foldl (fun acc c => acc * 10 + (c.toNat - 48)) 0

/-- Consume an optional fraction and exponent; the classifier never looks at
numeric values, so only the consumed characters matter. -/
def dropFracExp (cs : List Char) : List Char :=
  let cs1 :=
    match cs with
    | '.' :: r =>
      match takeDigits r with
      | ([], _) => cs
      | (_, r2) => r2
    | _ => cs
  match cs1 with
  | [] => cs1
  | e :: r =>
    if e = 'e' ∨ e = 'E' then
      let r1 :=
        match r with
        | s :: r2 => if s = '+' ∨ s = '-' then r2 else r
        | [] => r
      match takeDigits r1 with
      | ([], _) => cs1
      | (_, r2) => r2
    else cs1

/-- Parse a JSON number (integer value; fraction and exponent consumed). -/
def jnum : List Char → Option (Int × List Char)
  | [] => none
  | c :: cs =>
    let signRest : Bool × List Char := if c = '-' then (true, cs) else (false, c :: cs)
    match takeDigits signRest.2 with
    | ([], _) => none
    | (ds, rest1) =>
      let n : Int := Int.ofNat (digitsToNat ds)
      some (if signRest.1 then -n else n, dropFracExp rest1)

mutual

/-- Parse one JSON value (fuelled). -/
def jsonVal : Nat → List Char → Option (JsVal × List Char)
  | 0, _ => none
  | fuel + 1, cs0 =>
    match skipWs cs0 with
    | [] => none
    | c :: cs =>
      if c = 'n' then (stripLit ['u', 'l', 'l'] cs).map (fun r => (JsVal.nul, r))
      else if c = 't' then (stripLit ['r', 'u', 'e'] cs).map (fun r => (JsVal.bool true, r))
      else if c = 'f' then (stripLit ['a', 'l', 's', 'e'] cs).map (fun r => (JsVal.bool false, r))
      else if c = '"' then (jstrBody cs).map (fun r => (JsVal.str r.1, r.2))
      else if c = '\x7b' then
        match skipWs cs with
        | c2 :: cs2 =>
          if c2 = '\x7d' then some (JsVal.obj [], cs2)
          else
            match jsonMembers fuel cs with
            | some (fields, rest) => some (JsVal.obj fields, rest)
            | none => none
        | [] => none
      else if c = '[' then
        match skipWs cs with
        | c2 :: cs2 =>
          if c2 = ']' then some (JsVal.arr [], cs2)
          else
            match jsonElems fuel cs with
            | some (xs, rest) => some (JsVal.arr xs, rest)
            | none => none
        | [] => none
      else
        (jnum (c :: cs)).map (fun r => (JsVal.num r.1, r.2))

/-- Parse the members of a JSON object up to the closing brace (fuelled). -/
def jsonMembers : Nat → List Char → Option (List (String × JsVal) × List Char)
  | 0, _ => none
  | fuel + 1, cs0 =>
    match skipWs cs0 with
    | '"' :: cs =>
      match jstrBody cs with
      | none => none
      | some (k, rest1) =>
        match skipWs rest1 with
        | ':' :: rest2 =>
          match jsonVal fuel rest2 with
          | none => none
          | some (v, rest3) =>
            match skipWs rest3 with
            | ',' :: rest4 =>
              match jsonMembers fuel rest4 with
              | none => none
              | some (fields, rest5) => some ((k, v) :: fields, rest5)
            | '\x7d' :: rest4 => some ([(k, v)], rest4)
            | _ => none
        | _ => none
    | _ => none

/-- Parse the elements of a JSON array up to the closing bracket (fuelled). -/
def jsonElems : Nat → List Char → Option (List JsVal × List Char)
  | 0, _ => none
  | fuel + 1, cs0 =>
    match jsonVal fuel cs0 with
    | none => none
    | some (v, rest1) =>
      match skipWs rest1 with
      | ',' :: rest2 =>
        match jsonElems fuel rest2 with
        | none => none
        | some (xs, rest3) => some (v :: xs, rest3)
      | ']' :: rest2 => some ([v], rest2)
      | _ => none

end

/-- `JSON.parse`: parse a complete JSON document; anything but trailing
whitespace after the value is an error.  The fuel exceeds the nesting depth
of any input, since every descent first consumes at least one character. -/
def jsonParse (s : String) : Option JsVal :=
  match jsonVal (s.length + 1) s.data with
  | some (v, rest) => if skipWs rest = [] then some v else none
  | none => none

/-- The structural check both branches of `needsDecryption` perform:
`x.alg === "AES-GCM+RSA-OAEP"` and `typeof x.wrappedKey === "string"` and
the same for `ciphertext` and `iv`. -/
def envelopeFieldsCheck (fields : List (String × JsVal)) : Bool :=
  (match jsGetProp fields "alg" with
   | .str a => a == pinnedAlg
   | _ => false)
  && (jsGetProp fields "wrappedKey").isStr
  && (jsGetProp fields "ciphertext").isStr
  && (jsGetProp fields "iv").isStr

/-- `needsDecryption(text)` from `crypto.js`: if the value is a non-null
object, check the envelope fields (a JavaScript array is `typeof "object"`
but carries none of the string-keyed fields, so the check is false); if it
is a string, `JSON.parse` it inside `try`/`catch` and check the parsed
value's fields — a parse error is caught to `false`, and so is the
`TypeError` thrown by reading `.alg` of a parsed `null`, while property
access on a parsed primitive just yields `undefined`; every other value
falls through to `false`.  The function is total: it never throws. -/
def needsDecryption (text : JsVal) : Bool :=
  match text with
  | .obj fields => envelopeFieldsCheck fields
  | .arr _ => false
  | .str s =>
    match jsonParse s with
    | none => false
    | some (.obj fields) => envelopeFieldsCheck fields
    | some _ => false
  | _ => false

/-- The classifier described by the specification: true exactly on an
encrypted-envelope shape — an object, or a JSON string parsing to an object,
whose `alg` equals the pinned identifier and whose `iv`, `wrappedKey` and
`ciphertext` are string-typed — and false on everything else, including
non-strings, malformed JSON strings and JSON strings encoding `null` or
non-object values. -/
def specEnvelopeShape (v : JsVal) : Bool :=
  match v with
  | .obj fields => envelopeFieldsCheck fields
  | .str s =>
    match jsonParse s with
    | some (.obj fields) => envelopeFieldsCheck fields
    | _ => false
  | _ => false

/-- C10: `needsDecryption` is a total pure classifier returning a boolean on
every JavaScript value, and it returns true exactly on the encrypted-envelope
shapes the specification describes. -/
theorem needs_decryption_total_classifier (v : JsVal) :
    needsDecryption v = specEnvelopeShape v := by
  cases v with
  | undefinedVal => rfl
  | nul => rfl
  | bool b => rfl
  | num n => rfl
  | arr xs => rfl
  | obj fields => rfl
  | str s =>
    simp only [needsDecryption, specEnvelopeShape]
    cases jsonParse s with
    | none => rfl
    | some p => cases p <;> rfl

/-- Sanity: plain text is not classified as an envelope. -/
example : needsDecryption (.str "Hello") = false := rfl

/-- Sanity: an envelope object is classified as encrypted. -/
example :
    needsDecryption (.obj [("version", .num 1), ("alg", .str pinnedAlg),
      ("iv", .str "aa"), ("wrappedKey", .str "bb"), ("ciphertext", .str "cc")])
      = true := rfl

/-- Sanity: the JSON-string form of an envelope is classified as encrypted. -/
example :
    needsDecryption (.str
      "\x7b\"alg\":\"AES-GCM+RSA-OAEP\",\"iv\":\"aa\",\"wrappedKey\":\"bb\",\"ciphertext\":\"cc\"\x7d")
      = true := rfl

/-- Sanity: malformed JSON does not throw and is not an envelope. -/
example : needsDecryption (.str "\x7b\"alg\": oops") = false := rfl

/-- Sanity: a JSON string encoding `null` is handled and rejected. -/
example : needsDecryption (.str "null") = false := rfl

/-- Sanity: non-string, non-object values are rejected. -/
example : needsDecryption (.num 42) = false := rfl

end Chatify
